import Mathlib

/-!
Verification of the booking-conflict resolution engine and per-client
admission control of the `space-booking` service.

The definitions below are a shallow embedding of the Go source:
* `internal/database/database.go` — `CheckLaunchpadAvailability`,
  `CheckDestinationSchedule`;
* `internal/server` routes — `validateBooking`, `CreateBookingHandler`,
  `getVisitor`, `rateLimitMiddleware`;
* Go `time` semantics (RFC3339 parsing, `Format("2006-01-02")`, `Weekday`,
  `IsZero`) are embedded directly, since the checks depend on them.
-/

namespace SpaceBooking

/-- Wall-clock date-time as carried by Go `time.Time` values in this code
base: local calendar fields plus a UTC offset in minutes.  Sub-second
precision is not modelled (no check in the source depends on it). -/
structure DateTime where
  year : Int
  month : Nat
  day : Nat
  hour : Nat
  minute : Nat
  second : Nat
  offsetMinutes : Int
deriving DecidableEq

/-- Gregorian leap-year rule, as used by Go's `time` package. -/
def isLeapYear (y : Int) : Bool :=
  (y.emod 4 == 0 && y.emod 100 != 0) || y.emod 400 == 0

/-- Number of days in a month of a given year (Gregorian calendar). -/
def daysInMonth (y : Int) (m : Nat) : Nat :=
  if m = 2 then (if isLeapYear y then 29 else 28)
  else if m = 4 ∨ m = 6 ∨ m = 9 ∨ m = 11 then 30
  else 31

/-- Days elapsed from 0001-01-01 (proleptic Gregorian) to the given civil
date; day-count form of Go's internal absolute-time calendar. -/
def daysFromCivil (y : Int) (m : Nat) (d : Nat) : Int :=
  let y2 : Int := if m ≤ 2 then y - 1 else y
  let mp : Nat := (m + 9) % 12
  let doy : Int := (Int.ediv (153 * (mp : Int) + 2) 5) + (d : Int) - 1
  365 * y2 + Int.ediv y2 4 - Int.ediv y2 100 + Int.ediv y2 400 + doy - 306

/-- Go `time.Time.Weekday()`: Sunday = 0 … Saturday = 6.  Go's zero date
0001-01-01 is a Monday, hence the `+ 1` anchor. -/
def goWeekday (dt : DateTime) : Nat :=
  ((daysFromCivil dt.year dt.month dt.day + 1).emod 7).toNat

/-- The shifted weekday computed by `CheckDestinationSchedule`:
`(int(launchDate.Weekday()) + 6) % 7`, i.e. Monday = 0 … Sunday = 6. -/
def weekdayMon0 (dt : DateTime) : Nat :=
  (goWeekday dt + 6) % 7

/-- Seconds elapsed from Go's zero time instant (0001-01-01T00:00:00 UTC);
`IsZero` compares the represented instant against it. -/
def toEpochSeconds (dt : DateTime) : Int :=
  daysFromCivil dt.year dt.month dt.day * 86400
    + (dt.hour : Int) * 3600 + (dt.minute : Int) * 60 + (dt.second : Int)
    - dt.offsetMinutes * 60

/-- Go `time.Time.IsZero()`: the value denotes the zero time instant. -/
def isZero (dt : DateTime) : Bool :=
  toEpochSeconds dt == 0

/-- A natural number rendered in decimal, left-padded with zeros to a
given width; the padding used by Go layout fields such as `2006`/`01`. -/
def padNat (w n : Nat) : String :=
  let s := Nat.repr n
  if s.length < w then String.mk (List.replicate (w - s.length) '0') ++ s
  else s

/-- Go `t.Format("2006-01-02")`: the calendar day of the value's own
wall clock (the stored local fields), rendered as `YYYY-MM-DD`. -/
def formatDate (dt : DateTime) : String :=
  (if dt.year < 0 then "-" ++ padNat 4 dt.year.natAbs else padNat 4 dt.year.toNat)
    ++ "-" ++ padNat 2 dt.month ++ "-" ++ padNat 2 dt.day

/-- Numeric value of a decimal digit character. -/
def digVal (c : Char) : Nat := c.toNat - 48

/-- Trailing numeric-offset / `Z` part of an RFC3339 timestamp. -/
def parseOffset : List Char → Option Int
  | ['Z'] => some 0
  | ['+', h1, h2, ':', m1, m2] =>
    if h1.isDigit && h2.isDigit && m1.isDigit && m2.isDigit then
      let h := digVal h1 * 10 + digVal h2
      let m := digVal m1 * 10 + digVal m2
      if h ≤ 23 && m ≤ 59 then some ((h : Int) * 60 + (m : Int)) else none
    else none
  | ['-', h1, h2, ':', m1, m2] =>
    if h1.isDigit && h2.isDigit && m1.isDigit && m2.isDigit then
      let h := digVal h1 * 10 + digVal h2
      let m := digVal m1 * 10 + digVal m2
      if h ≤ 23 && m ≤ 59 then some (-((h : Int) * 60 + (m : Int))) else none
    else none
  | _ => none

/-- Optional fractional seconds followed by the offset part. -/
def parseFracOffset : List Char → Option Int
  | '.' :: c :: cs =>
    if c.isDigit then parseOffset (cs.dropWhile Char.isDigit) else none
  | cs => parseOffset cs

/-- Go `time.Parse(time.RFC3339, s)`: strict `YYYY-MM-DDTHH:MM:SS` with
optional fractional seconds and a `Z` or `±HH:MM` offset, with calendar
range checks; `none` models a parse error. -/
def parseRFC3339 (s : String) : Option DateTime :=
  match s.data with
  | y1 :: y2 :: y3 :: y4 :: '-' :: mo1 :: mo2 :: '-' :: d1 :: d2 :: 'T' ::
      h1 :: h2 :: ':' :: mi1 :: mi2 :: ':' :: s1 :: s2 :: rest =>
    if y1.isDigit && y2.isDigit && y3.isDigit && y4.isDigit &&
        mo1.isDigit && mo2.isDigit && d1.isDigit && d2.isDigit &&
        h1.isDigit && h2.isDigit && mi1.isDigit && mi2.isDigit &&
        s1.isDigit && s2.isDigit then
      let y : Int := (digVal y1 * 1000 + digVal y2 * 100 + digVal y3 * 10 + digVal y4 : Nat)
      let mo := digVal mo1 * 10 + digVal mo2
      let d := digVal d1 * 10 + digVal d2
      let h := digVal h1 * 10 + digVal h2
      let mi := digVal mi1 * 10 + digVal mi2
      let se := digVal s1 * 10 + digVal s2
      match parseFracOffset rest with
      | some off =>
        if 1 ≤ mo ∧ mo ≤ 12 ∧ 1 ≤ d ∧ d ≤ daysInMonth y mo ∧
            h ≤ 23 ∧ mi ≤ 59 ∧ se ≤ 59 then
          some ⟨y, mo, d, h, mi, se, off⟩
        else none
      | none => none
    else none
  | _ => none

/-- One record of the external launch feed, as decoded by
`CheckLaunchpadAvailability` (`launchpad`, `name`, `date_local`, `id`). -/
structure LaunchRecord where
  launchpad : String
  name : String
  dateLocal : String
  id : String
deriving DecidableEq

/-- Outcome of fetching and decoding the external feed envelope:
`fetchError` models an `http.Get`/`io.ReadAll` failure, `badEnvelope` a
`json.Unmarshal` failure, `ok` the decoded record list. -/
inductive FeedResult where
  | fetchError
  | badEnvelope
  | ok (launches : List LaunchRecord)
deriving DecidableEq

/-- Outcome of the `SELECT id FROM destinations ORDER BY id` query:
`queryError` models a query/scan/iteration error, `ok` the id list. -/
inductive DestResult where
  | queryError
  | ok (destinationIDs : List Int)
deriving DecidableEq

/-- The record loop of `CheckLaunchpadAvailability`: a record whose
`date_local` fails to parse is skipped; a parsed record at the requested
launchpad on the same formatted calendar day returns `false`
(unavailable); otherwise `true` (available). -/
def scanLaunches (launchpadID : String) (launchDate : DateTime) :
    List LaunchRecord → Bool
  | [] => true
  | launch :: rest =>
    match parseRFC3339 launch.dateLocal with
    | none => scanLaunches launchpadID launchDate rest
    | some dateLocal =>
      if launch.launchpad = launchpadID ∧
          formatDate dateLocal = formatDate launchDate then false
      else scanLaunches launchpadID launchDate rest

/-- `CheckLaunchpadAvailability` over a fetched feed: envelope failures
propagate as an error; otherwise the record scan decides availability. -/
def checkLaunchpadAvailability (feed : FeedResult) (launchpadID : String)
    (launchDate : DateTime) : Except Unit Bool :=
  match feed with
  | .fetchError => .error ()
  | .badEnvelope => .error ()
  | .ok launches => .ok (scanLaunches launchpadID launchDate launches)

/-- `CheckDestinationSchedule`: query errors propagate; an empty
destination list is an error (`"no destinations available"`); otherwise
the weekday-indexed expected destination decides the outcome. -/
def checkDestinationSchedule (dests : DestResult) (destinationID : Int)
    (launchpadID : String) (launchDate : DateTime) : Except Unit Bool :=
  match dests with
  | .queryError => .error ()
  | .ok destinationIDs =>
    if destinationIDs.length = 0 then .error ()
    else
      let weekday := weekdayMon0 launchDate
      let index := weekday % destinationIDs.length
      let expectedDestinationID := destinationIDs.getD index 0
      if destinationID ≠ expectedDestinationID then .ok false
      else .ok true

/-- A decoded booking request (`models.Booking`). -/
structure Booking where
  id : Int
  firstName : String
  lastName : String
  gender : String
  birthday : DateTime
  launchpadID : String
  destinationID : Int
  launchDate : DateTime
deriving DecidableEq

/-- `validateBooking` from the server routes, with the Go `(bool, error)`
pair rendered as `Except Unit Bool`: missing dates and upstream failures
return an error; conflicts return `ok false`; success returns `ok true`. -/
def validateBooking (booking : Booking) (feed : FeedResult)
    (dests : DestResult) : Except Unit Bool :=
  if isZero booking.launchDate || isZero booking.birthday then .error ()
  else
    match checkLaunchpadAvailability feed booking.launchpadID booking.launchDate with
    | .error _ => .error ()
    | .ok false => .ok false
    | .ok true =>
      match checkDestinationSchedule dests booking.destinationID
          booking.launchpadID booking.launchDate with
      | .error _ => .error ()
      | .ok false => .ok false
      | .ok true => .ok true

/-- The `Validate` outcome taxonomy of the conflict resolver. -/
inductive VOutcome where
  | accepted
  | missingFields
  | launchSiteConflict
  | destinationRotationMismatch
  | upstreamError
deriving DecidableEq

/-- `validateBooking` with its control-flow branches labelled by the
reason taxonomy: the same checks in the same order, recording which
branch produced the rejection. -/
def validate (booking : Booking) (feed : FeedResult)
    (dests : DestResult) : VOutcome :=
  if isZero booking.launchDate || isZero booking.birthday then .missingFields
  else
    match checkLaunchpadAvailability feed booking.launchpadID booking.launchDate with
    | .error _ => .upstreamError
    | .ok false => .launchSiteConflict
    | .ok true =>
      match checkDestinationSchedule dests booking.destinationID
          booking.launchpadID booking.launchDate with
      | .error _ => .upstreamError
      | .ok false => .destinationRotationMismatch
      | .ok true => .accepted

/-- The user-visible responses written by `CreateBookingHandler` after a
request body has been decoded. -/
inductive Response where
  | internalServerError
  | schedulingConflict
  | created
deriving DecidableEq

/-- `CreateBookingHandler` after decoding: a validation error maps to
HTTP 500, a conflict to the HTTP 400 scheduling-conflict message, and an
accepted booking is inserted (`insertOk` models the insert outcome). -/
def createBookingHandler (booking : Booking) (feed : FeedResult)
    (dests : DestResult) (insertOk : Bool) : Response :=
  match validateBooking booking feed dests with
  | .error _ => .internalServerError
  | .ok false => .schedulingConflict
  | .ok true => if insertOk then .created else .internalServerError

/-- Modelled from the spec: the per-client token bucket behind
`rate.NewLimiter(1, 3)` (the limiter implementation lives in the
third-party `golang.org/x/time/rate` package, not in this repository).
Capacity 3 tokens, continuous refill at 1 token/second; time and tokens
are rationals (seconds). -/
structure Limiter where
  tokens : ℚ
  last : ℚ
deriving DecidableEq

/-- Bucket capacity (burst) of `rate.NewLimiter(1, 3)`. -/
def burst : ℚ := 3

/-- Refill rate of `rate.NewLimiter(1, 3)`: 1 token per second. -/
def refillRate : ℚ := 1

/-- Modelled from the spec: continuous refill — tokens accrued since the
last event, capped at capacity. -/
def advanceTo (l : Limiter) (now : ℚ) : Limiter :=
  ⟨min burst (l.tokens + (now - l.last) * refillRate), now⟩

/-- Modelled from the spec: `limiter.Allow()` — refill, then atomically
consume one token when at least one is available, otherwise deny with no
side effect beyond the refill. -/
def allow (l : Limiter) (now : ℚ) : Bool × Limiter :=
  let l2 := advanceTo l now
  if 1 ≤ l2.tokens then (true, ⟨l2.tokens - 1, now⟩) else (false, l2)

/-- A freshly created limiter starts with a full bucket. -/
def freshLimiter (now : ℚ) : Limiter := ⟨burst, now⟩

/-- Run a sequence of admission attempts at the given instants against
one bucket, returning the number of admitted requests and the final
bucket state. -/
def allowSeq (l : Limiter) : List ℚ → Nat × Limiter
  | [] => (0, l)
  | t :: ts =>
    let r := allow l t
    let rest := allowSeq r.2 ts
    ((if r.1 then 1 else 0) + rest.1, rest.2)

/-- `getVisitor`: look up the per-identity bucket, creating a fresh one
on first sight of the identity; returns the bucket and the updated
registry. -/
def getVisitor (visitors : String → Option Limiter) (ip : String)
    (now : ℚ) : Limiter × (String → Option Limiter) :=
  match visitors ip with
  | some limiter => (limiter, visitors)
  | none =>
    let limiter := freshLimiter now
    (limiter, fun k => if k = ip then some limiter else visitors k)

/-- One pass of `rateLimitMiddleware` for a request from `ip`: fetch the
identity's bucket via `getVisitor` and ask it for admission. -/
def allowClient (visitors : String → Option Limiter) (ip : String)
    (now : ℚ) : Bool × (String → Option Limiter) :=
  let gv := getVisitor visitors ip now
  let r := allow gv.1 now
  (r.1, fun k => if k = ip then some r.2 else gv.2 k)

/-- Run a sequence of requests `(identity, instant)` through the
admission controller, returning the final registry and the admission
outcomes in request order. -/
def runClients (visitors : String → Option Limiter) :
    List (String × ℚ) → (String → Option Limiter) × List Bool
  | [] => (visitors, [])
  | (ip, t) :: es =>
    let r := allowClient visitors ip t
    let rest := runClients r.2 es
    (rest.1, r.1 :: rest.2)

/-! Concrete values taken from the repository's tests. -/

/-- The booking of `TestCreateBookingHandler`: every field present,
destination 6, launch date 2049-12-25 at `test_launchpad`. -/
def testBooking : Booking :=
  ⟨1, "Test", "User", "Non-binary", ⟨1990, 1, 1, 0, 0, 0, 0⟩,
    "test_launchpad", 6, ⟨2049, 12, 25, 0, 0, 0, 0⟩⟩

/-- The conflicting feed record of `TestCheckLaunchpadAvailability`. -/
def testRecord : LaunchRecord :=
  ⟨"test_launchpad", "Test Launch", "2049-12-25T00:00:00Z", "launch_1"⟩

/-- The unparseable-timestamp record of
`TestCheckLaunchpadAvailability_InvalidDate`. -/
def invalidDateRecord : LaunchRecord :=
  ⟨"test_launchpad", "Invalid Date Launch", "invalid-date-format", "launch_3"⟩

/-- `testBooking` with the birth date absent (the Go zero time). -/
def zeroBirthdayBooking : Booking :=
  { testBooking with birthday := ⟨1, 1, 1, 0, 0, 0, 0⟩ }

/-- The launch date used throughout the tests: 2049-12-25. -/
def dec25 : DateTime := ⟨2049, 12, 25, 0, 0, 0, 0⟩

/-- The feed scan reports a conflict exactly when some record parses and
matches the requested launchpad on the same formatted calendar day. -/
theorem scanLaunches_eq_false_iff (site : String) (d : DateTime)
    (recs : List LaunchRecord) :
    scanLaunches site d recs = false ↔
      ∃ r ∈ recs, ∃ dt, parseRFC3339 r.dateLocal = some dt ∧
        r.launchpad = site ∧ formatDate dt = formatDate d := by
  induction recs with
  | nil => simp [scanLaunches]
  | cons r recs ih =>
    cases hp : parseRFC3339 r.dateLocal with
    | none =>
      simp only [scanLaunches, hp]
      rw [ih]
      constructor
      · rintro ⟨r2, hm, dt, h1, h2, h3⟩
        exact ⟨r2, List.mem_cons_of_mem _ hm, dt, h1, h2, h3⟩
      · rintro ⟨r2, hm, dt, h1, h2, h3⟩
        rcases List.mem_cons.1 hm with rfl | hm2
        · rw [hp] at h1; cases h1
        · exact ⟨r2, hm2, dt, h1, h2, h3⟩
    | some dt =>
      simp only [scanLaunches, hp]
      by_cases hc : r.launchpad = site ∧ formatDate dt = formatDate d
      · rw [if_pos hc]
        simp only [true_iff, eq_self_iff_true]
        exact ⟨r, List.mem_cons_self _ _, dt, hp, hc.1, hc.2⟩
      · rw [if_neg hc, ih]
        constructor
        · rintro ⟨r2, hm, dt2, h1, h2, h3⟩
          exact ⟨r2, List.mem_cons_of_mem _ hm, dt2, h1, h2, h3⟩
        · rintro ⟨r2, hm, dt2, h1, h2, h3⟩
          rcases List.mem_cons.1 hm with rfl | hm2
          · rw [hp] at h1
            injection h1 with h1
            subst h1
            exact absurd ⟨h2, h3⟩ hc
          · exact ⟨r2, hm2, dt2, h1, h2, h3⟩

/-- A record whose timestamp fails to parse is transparent to the scan. -/
theorem scanLaunches_skip (site : String) (d : DateTime)
    (bad : LaunchRecord) (hbad : parseRFC3339 bad.dateLocal = none) :
    ∀ xs ys : List LaunchRecord,
      scanLaunches site d (xs ++ bad :: ys) = scanLaunches site d (xs ++ ys) := by
  intro xs
  induction xs with
  | nil => intro ys; simp [scanLaunches, hbad]
  | cons r xs ih =>
    intro ys
    cases hp : parseRFC3339 r.dateLocal with
    | none =>
      simp only [List.cons_append, scanLaunches, hp]
      exact ih ys
    | some dt =>
      simp only [List.cons_append, scanLaunches, hp]
      by_cases hc : r.launchpad = site ∧ formatDate dt = formatDate d
      · rw [if_pos hc, if_pos hc]
      · rw [if_neg hc, if_neg hc]; exact ih ys

/-- C4: for every successfully-parsed feed record at the requested site,
the availability check compares only the formatted calendar day (each
value's own local `YYYY-MM-DD` rendering) of record and request: it fails
exactly when some such record falls on the same calendar day as the
requested launch date, and passes exactly when none does. -/
theorem spec_c4 (recs : List LaunchRecord) (site : String) (d : DateTime) :
    (checkLaunchpadAvailability (.ok recs) site d = .ok false ↔
      ∃ r ∈ recs, ∃ dt, parseRFC3339 r.dateLocal = some dt ∧
        r.launchpad = site ∧ formatDate dt = formatDate d) ∧
    (checkLaunchpadAvailability (.ok recs) site d = .ok true ↔
      ¬ ∃ r ∈ recs, ∃ dt, parseRFC3339 r.dateLocal = some dt ∧
        r.launchpad = site ∧ formatDate dt = formatDate d) := by
  have h := scanLaunches_eq_false_iff site d recs
  rw [checkLaunchpadAvailability]
  constructor
  · simp only [Except.ok.injEq]
    exact h
  · simp only [Except.ok.injEq]
    rw [← h]
    cases hs : scanLaunches site d recs <;> simp

/-- Witness for C4 at the repository's own test data: the feed record at
`test_launchpad` on 2049-12-25 makes the check fail for that site and
day. -/
theorem spec_c4_witness :
    checkLaunchpadAvailability (.ok [testRecord]) "test_launchpad" dec25 = .ok false :=
  (spec_c4 [testRecord] "test_launchpad" dec25).1.mpr
    ⟨testRecord, by decide, ⟨2049, 12, 25, 0, 0, 0, 0⟩, by decide, rfl, rfl⟩

/-- C3 (amended): given a feed containing a successfully-parseable record
at the requested site on the requested launch date's calendar day, and
provided the request's launch date and birth date are present (non-zero),
`validate` rejects with `launchSiteConflict` regardless of the request's
other fields. -/
theorem spec_c3 (bk : Booking) (recs : List LaunchRecord) (dr : DestResult)
    (r : LaunchRecord) (dt : DateTime) (hmem : r ∈ recs)
    (hp : parseRFC3339 r.dateLocal = some dt)
    (hsite : r.launchpad = bk.launchpadID)
    (hday : formatDate dt = formatDate bk.launchDate)
    (hz1 : isZero bk.launchDate = false) (hz2 : isZero bk.birthday = false) :
    validate bk (.ok recs) dr = .launchSiteConflict := by
  have hscan : scanLaunches bk.launchpadID bk.launchDate recs = false :=
    (scanLaunches_eq_false_iff _ _ _).2 ⟨r, hmem, dt, hp, hsite, hday⟩
  simp [validate, hz1, hz2, checkLaunchpadAvailability, hscan]

/-- Witness for C3 at the repository's own test data. -/
theorem spec_c3_witness :
    validate testBooking (.ok [testRecord]) (.ok [1, 2, 3, 4, 5, 6, 7]) =
      .launchSiteConflict :=
  spec_c3 testBooking [testRecord] (.ok [1, 2, 3, 4, 5, 6, 7]) testRecord
    ⟨2049, 12, 25, 0, 0, 0, 0⟩ (by decide) (by decide) rfl rfl (by decide) (by decide)

/-- C3 counterexample to the claim as stated: with the same conflicting
feed record but an absent birth date, `validate` rejects with
`missingFields`, not `launchSiteConflict` — the other fields are not
irrelevant. -/
theorem spec_c3_counterexample :
    validate zeroBirthdayBooking (.ok [testRecord]) (.ok [1, 2, 3, 4, 5, 6, 7]) =
        .missingFields ∧
      validate zeroBirthdayBooking (.ok [testRecord]) (.ok [1, 2, 3, 4, 5, 6, 7]) ≠
        .launchSiteConflict := by
  decide

/-- C6: a feed record whose timestamp fails to parse is skipped without
failing the scan: alone it causes no conflict, its presence anywhere in
the feed never changes the availability result nor the `validate`
outcome, and a request matching no parseable record is still accepted
when the other checks pass. -/
theorem spec_c6 (bk : Booking) (bad : LaunchRecord) (recs : List LaunchRecord)
    (dr : DestResult) (site : String) (d : DateTime)
    (hbad : parseRFC3339 bad.dateLocal = none) :
    checkLaunchpadAvailability (.ok [bad]) site d = .ok true ∧
    (∀ xs ys : List LaunchRecord,
      checkLaunchpadAvailability (.ok (xs ++ bad :: ys)) site d =
        checkLaunchpadAvailability (.ok (xs ++ ys)) site d) ∧
    validate bk (.ok (bad :: recs)) dr = validate bk (.ok recs) dr ∧
    ((∀ r ∈ recs, ∀ dt, parseRFC3339 r.dateLocal = some dt →
        ¬(r.launchpad = bk.launchpadID ∧ formatDate dt = formatDate bk.launchDate)) →
      checkDestinationSchedule dr bk.destinationID bk.launchpadID bk.launchDate =
        .ok true →
      isZero bk.launchDate = false → isZero bk.birthday = false →
      validate bk (.ok (bad :: recs)) dr = .accepted) := by
  have hb : scanLaunches bk.launchpadID bk.launchDate (bad :: recs) =
      scanLaunches bk.launchpadID bk.launchDate recs := by
    simpa using scanLaunches_skip bk.launchpadID bk.launchDate bad hbad [] recs
  refine ⟨?_, ?_, ?_, ?_⟩
  · simp [checkLaunchpadAvailability, scanLaunches, hbad]
  · intro xs ys
    simp [checkLaunchpadAvailability, scanLaunches_skip site d bad hbad xs ys]
  · unfold validate
    rw [show checkLaunchpadAvailability (.ok (bad :: recs)) bk.launchpadID bk.launchDate =
        checkLaunchpadAvailability (.ok recs) bk.launchpadID bk.launchDate from by
      simp [checkLaunchpadAvailability, hb]]
  · intro hnone hdest hz1 hz2
    have hscan : scanLaunches bk.launchpadID bk.launchDate recs = true := by
      cases hs : scanLaunches bk.launchpadID bk.launchDate recs with
      | true => rfl
      | false =>
        obtain ⟨r, hm, dt, h1, h2, h3⟩ := (scanLaunches_eq_false_iff _ _ _).1 hs
        exact absurd ⟨h2, h3⟩ (hnone r hm dt h1)
    have hscan2 : scanLaunches bk.launchpadID bk.launchDate (bad :: recs) = true := by
      rw [hb, hscan]
    simp [validate, hz1, hz2, checkLaunchpadAvailability, hscan2, hdest]

/-- Witness for C6 at the repository's own test data: the
`invalid-date-format` record does not block the otherwise-valid booking
(destination 6, 2049-12-25), which is accepted. -/
theorem spec_c6_witness :
    validate testBooking (.ok [invalidDateRecord]) (.ok [1, 2, 3, 4, 5, 6, 7]) =
      .accepted :=
  (spec_c6 testBooking invalidDateRecord [] (.ok [1, 2, 3, 4, 5, 6, 7])
      "test_launchpad" dec25 (by decide)).2.2.2
    (by simp) rfl (by decide) (by decide)

/-- C1: for every non-empty ascending destination list and launch date,
the rotation check computes the Monday = 0 … Sunday = 6 weekday (shown on
the week 2049-12-20 … 2049-12-26), takes the weekday modulo the list
length as index, and accepts exactly when the requested destination is
the identifier at that index, answering `false`
(`DestinationRotationMismatch`) otherwise; for destinations 1..7 and
launch date 2049-12-25 the expected destination is 6. -/
theorem spec_c1 (ids : List Int) (destID : Int) (site : String) (d : DateTime)
    (hne : ids ≠ []) (hasc : List.Chain' (· < ·) ids) :
    (checkDestinationSchedule (.ok ids) destID site d = .ok true ↔
      destID = ids.getD (weekdayMon0 d % ids.length) 0) ∧
    (destID ≠ ids.getD (weekdayMon0 d % ids.length) 0 →
      checkDestinationSchedule (.ok ids) destID site d = .ok false) ∧
    weekdayMon0 ⟨2049, 12, 20, 0, 0, 0, 0⟩ = 0 ∧
    weekdayMon0 ⟨2049, 12, 21, 0, 0, 0, 0⟩ = 1 ∧
    weekdayMon0 ⟨2049, 12, 22, 0, 0, 0, 0⟩ = 2 ∧
    weekdayMon0 ⟨2049, 12, 23, 0, 0, 0, 0⟩ = 3 ∧
    weekdayMon0 ⟨2049, 12, 24, 0, 0, 0, 0⟩ = 4 ∧
    weekdayMon0 dec25 = 5 ∧
    weekdayMon0 ⟨2049, 12, 26, 0, 0, 0, 0⟩ = 6 ∧
    ([1, 2, 3, 4, 5, 6, 7] : List Int).getD (weekdayMon0 dec25 % 7) 0 = 6 := by
  have hlen : ¬ ids.length = 0 := by simpa using hne
  refine ⟨?_, ?_, by decide, by decide, by decide, by decide, by decide,
    by decide, by decide, by decide⟩
  · rw [checkDestinationSchedule, if_neg hlen]
    by_cases hd : destID = ids.getD (weekdayMon0 d % ids.length) 0
    · simp [hd]
    · simp [hd]
  · intro hd
    rw [checkDestinationSchedule, if_neg hlen, if_pos hd]

/-- Witness for C1 at the spec's concrete scenario: destinations 1..7 and
launch date 2049-12-25 — destination 6 is accepted, destination 1 is
rejected. -/
theorem spec_c1_witness :
    checkDestinationSchedule (.ok [1, 2, 3, 4, 5, 6, 7]) 6 "test_launchpad" dec25 =
        .ok true ∧
      checkDestinationSchedule (.ok [1, 2, 3, 4, 5, 6, 7]) 1 "test_launchpad" dec25 =
        .ok false :=
  ⟨(spec_c1 [1, 2, 3, 4, 5, 6, 7] 6 "test_launchpad" dec25 (by decide)
      (by norm_num [List.chain'_cons])).1.mpr (by decide),
    (spec_c1 [1, 2, 3, 4, 5, 6, 7] 1 "test_launchpad" dec25 (by decide)
      (by norm_num [List.chain'_cons])).2.1 (by decide)⟩

/-- C10: the rotation check never indexes out of bounds — for every
launch date the Go weekday lies in 0..6, so does the shifted weekday, and
for every non-empty destination list the computed index is below the list
length. -/
theorem spec_c10 (d : DateTime) (ids : List Int) (hne : ids ≠ []) :
    goWeekday d < 7 ∧ weekdayMon0 d < 7 ∧
      weekdayMon0 d % ids.length < ids.length := by
  have h7 : goWeekday d < 7 := by
    unfold goWeekday
    have h1 : 0 ≤ (daysFromCivil d.year d.month d.day + 1).emod 7 :=
      Int.emod_nonneg _ (by norm_num)
    have h2 : (daysFromCivil d.year d.month d.day + 1).emod 7 < 7 :=
      Int.emod_lt_of_pos _ (by norm_num)
    omega
  have hlen : 0 < ids.length := List.length_pos.2 hne
  exact ⟨h7, Nat.mod_lt _ (by norm_num), Nat.mod_lt _ hlen⟩

/-- Witness for C10 at the test data: date 2049-12-25, destinations 1..7. -/
theorem spec_c10_witness :
    goWeekday dec25 < 7 ∧ weekdayMon0 dec25 < 7 ∧
      weekdayMon0 dec25 % ([1, 2, 3, 4, 5, 6, 7] : List Int).length <
        ([1, 2, 3, 4, 5, 6, 7] : List Int).length :=
  spec_c10 dec25 [1, 2, 3, 4, 5, 6, 7] (by decide)

/-- C5 (amended): `validate` never answers `accepted` when an upstream
authority is unavailable (failed fetch, unparseable envelope, empty
destination list, destination query error); moreover, when both required
dates are present, a failed fetch or unparseable envelope yields
`upstreamError`, and â when additionally the launch-site check passes â
an empty destination list or destination query error yields
`upstreamError`. -/
theorem spec_c5 (bk : Booking) (f : FeedResult) (dr : DestResult) :
    validate bk .fetchError dr ≠ .accepted ∧
    validate bk .badEnvelope dr ≠ .accepted ∧
    validate bk f (.ok []) ≠ .accepted ∧
    validate bk f .queryError ≠ .accepted ∧
    (isZero bk.launchDate = false → isZero bk.birthday = false →
      validate bk .fetchError dr = .upstreamError ∧
      validate bk .badEnvelope dr = .upstreamError ∧
      (checkLaunchpadAvailability f bk.launchpadID bk.launchDate = .ok true →
        validate bk f (.ok []) = .upstreamError ∧
        validate bk f .queryError = .upstreamError)) := by
  refine ⟨?_, ?_, ?_, ?_, ?_⟩
  · cases hz : (isZero bk.launchDate || isZero bk.birthday) <;>
      simp [validate, hz, checkLaunchpadAvailability]
  · cases hz : (isZero bk.launchDate || isZero bk.birthday) <;>
      simp [validate, hz, checkLaunchpadAvailability]
  · cases hz : (isZero bk.launchDate || isZero bk.birthday) with
    | true => simp [validate, hz]
    | false =>
      simp only [validate, hz, Bool.false_eq_true, if_false]
      cases hchk : checkLaunchpadAvailability f bk.launchpadID bk.launchDate with
      | error e => simp
      | ok b => cases b <;> simp [checkDestinationSchedule]
  · cases hz : (isZero bk.launchDate || isZero bk.birthday) with
    | true => simp [validate, hz]
    | false =>
      simp only [validate, hz, Bool.false_eq_true, if_false]
      cases hchk : checkLaunchpadAvailability f bk.launchpadID bk.launchDate with
      | error e => simp
      | ok b => cases b <;> simp [checkDestinationSchedule]
  · intro hz1 hz2
    have hz : (isZero bk.launchDate || isZero bk.birthday) = false := by
      rw [hz1, hz2]; rfl
    refine ⟨by simp [validate, hz, checkLaunchpadAvailability],
      by simp [validate, hz, checkLaunchpadAvailability], ?_⟩
    intro hok
    constructor <;> simp [validate, hz, hok, checkDestinationSchedule]

/-- Witness for C5: with all fields present, a failed fetch yields
`upstreamError`, and an empty destination list behind an empty feed
yields `upstreamError`. -/
theorem spec_c5_witness :
    validate testBooking .fetchError (.ok [1, 2, 3, 4, 5, 6, 7]) = .upstreamError ∧
      validate testBooking (.ok []) (.ok []) = .upstreamError :=
  ⟨((spec_c5 testBooking (.ok []) (.ok [1, 2, 3, 4, 5, 6, 7])).2.2.2.2
      (by decide) (by decide)).1,
    (((spec_c5 testBooking (.ok []) (.ok [])).2.2.2.2
      (by decide) (by decide)).2.2 rfl).1⟩

/-- C5 counterexample to the claim as stated: the outcome is not
`upstreamError` "for every booking request" â a request with an absent
birth date gets `missingFields` even though the fetch failed, and a
request whose launch site conflicts gets `launchSiteConflict` even though
the destination list is empty. -/
theorem spec_c5_counterexample :
    validate zeroBirthdayBooking .fetchError (.ok [1, 2, 3, 4, 5, 6, 7]) =
        .missingFields ∧
      validate testBooking (.ok [testRecord]) (.ok []) = .launchSiteConflict := by
  decide

/-- C7 (amended): a request with an absent launch date or birth date is
rejected with `missingFields` without consulting the feed or the
destination store (the outcome is the same for every upstream state);
however `CreateBookingHandler` maps this validation failure to the same
server-fault response (HTTP 500 Internal Server Error) as an upstream
failure, not to a rejection response distinguishable from system faults â
only conflict rejections get the distinguishable HTTP 400 response. -/
theorem spec_c7 (bk : Booking) (f f2 : FeedResult) (dr dr2 : DestResult)
    (ins : Bool)
    (hz : isZero bk.launchDate = true ∨ isZero bk.birthday = true) :
    validate bk f dr = .missingFields ∧
    validate bk f dr = validate bk f2 dr2 ∧
    createBookingHandler bk f dr ins = .internalServerError ∧
    (∀ (b2 : Booking) (dr3 : DestResult) (ins2 : Bool),
      createBookingHandler b2 .fetchError dr3 ins2 = .internalServerError) := by
  have hzb : (isZero bk.launchDate || isZero bk.birthday) = true := by
    rcases hz with h | h <;> simp [h]
  have hvb : validateBooking bk f dr = .error () := by
    rw [validateBooking, if_pos hzb]
  have hv : validate bk f dr = .missingFields := by
    rw [validate, if_pos hzb]
  have hv2 : validate bk f2 dr2 = .missingFields := by
    rw [validate, if_pos hzb]
  refine ⟨hv, hv.trans hv2.symm, by unfold createBookingHandler; rw [hvb], ?_⟩
  intro b2 dr3 ins2
  unfold createBookingHandler
  cases hz2 : (isZero b2.launchDate || isZero b2.birthday) with
  | true => rw [validateBooking, if_pos hz2]
  | false =>
    rw [validateBooking, if_neg (by simp [hz2])]
    rfl

/-- Witness for C7 at the test booking with its birth date removed. -/
theorem spec_c7_witness :
    validate zeroBirthdayBooking (.ok []) (.ok [1, 2, 3, 4, 5, 6, 7]) =
        .missingFields ∧
      createBookingHandler zeroBirthdayBooking (.ok []) (.ok [1, 2, 3, 4, 5, 6, 7])
          true =
        .internalServerError :=
  ⟨(spec_c7 zeroBirthdayBooking (.ok []) .fetchError (.ok [1, 2, 3, 4, 5, 6, 7])
      .queryError true (Or.inr (by decide))).1,
    (spec_c7 zeroBirthdayBooking (.ok []) .fetchError (.ok [1, 2, 3, 4, 5, 6, 7])
      .queryError true (Or.inr (by decide))).2.2.1⟩

/-- C7 counterexample to the claim as stated: the missing-fields
rejection is the very same handler response (HTTP 500) as the
upstream-failure response, hence not distinguishable from a system
fault. -/
theorem spec_c7_counterexample :
    createBookingHandler zeroBirthdayBooking (.ok []) (.ok [1, 2, 3, 4, 5, 6, 7])
          true =
        .internalServerError ∧
      createBookingHandler testBooking .fetchError (.ok [1, 2, 3, 4, 5, 6, 7])
          true =
        .internalServerError := by
  decide

/-- C9: the conflict resolver is deterministic in its inputs â two calls
with identical booking, identical feed contents and identical destination
list produce identical outcomes, both at the reason level and at the
`(bool, error)` level returned by `validateBooking`. -/
theorem spec_c9 (b1 b2 : Booking) (f1 f2 : FeedResult) (d1 d2 : DestResult)
    (hb : b1 = b2) (hf : f1 = f2) (hd : d1 = d2) :
    validate b1 f1 d1 = validate b2 f2 d2 ∧
      validateBooking b1 f1 d1 = validateBooking b2 f2 d2 := by
  subst hb; subst hf; subst hd; exact ⟨rfl, rfl⟩

/-- Witness for C9 at the test data. -/
theorem spec_c9_witness :
    validate testBooking (.ok [testRecord]) (.ok [1, 2, 3, 4, 5, 6, 7]) =
        validate testBooking (.ok [testRecord]) (.ok [1, 2, 3, 4, 5, 6, 7]) ∧
      validateBooking testBooking (.ok [testRecord]) (.ok [1, 2, 3, 4, 5, 6, 7]) =
        validateBooking testBooking (.ok [testRecord]) (.ok [1, 2, 3, 4, 5, 6, 7]) :=
  spec_c9 testBooking testBooking (.ok [testRecord]) (.ok [testRecord])
    (.ok [1, 2, 3, 4, 5, 6, 7]) (.ok [1, 2, 3, 4, 5, 6, 7]) rfl rfl rfl

/-- `advanceTo` written with the capacity and rate constants inlined. -/
theorem advanceTo_eq (x t u : ℚ) :
    advanceTo ⟨x, t⟩ u = ⟨min 3 (x + (u - t)), u⟩ := by
  unfold advanceTo burst refillRate
  norm_num

/-- A successful admission consumes exactly one token. -/
theorem allow_succ (x t u : ℚ) (h : 1 ≤ min 3 (x + (u - t))) :
    allow ⟨x, t⟩ u = (true, ⟨min 3 (x + (u - t)) - 1, u⟩) := by
  unfold allow
  rw [advanceTo_eq]
  dsimp only
  rw [if_pos h]

/-- A denied admission leaves the refilled bucket untouched. -/
theorem allow_fail (x t u : ℚ) (h : ¬ 1 ≤ min 3 (x + (u - t))) :
    allow ⟨x, t⟩ u = (false, ⟨min 3 (x + (u - t)), u⟩) := by
  unfold allow
  rw [advanceTo_eq]
  dsimp only
  rw [if_neg h]

/-- Token-bucket accounting: over any time-ordered admission sequence
bounded by instant `B`, the number of admitted requests is at most the
starting tokens plus the tokens accrued up to `B`. -/
theorem allowSeq_bound (B : ℚ) (ts : List ℚ) :
    ∀ l : Limiter, List.Chain (· ≤ ·) l.last ts →
      (∀ t ∈ ts, t ≤ B) → 0 ≤ l.tokens → l.last ≤ B →
      ((allowSeq l ts).1 : ℚ) ≤ l.tokens + (B - l.last) := by
  induction ts with
  | nil =>
    intro l _ _ h0 hB
    simp only [allowSeq, Nat.cast_zero]
    linarith
  | cons t ts ih =>
    intro l hch hub h0 hB
    obtain ⟨hlt, hch2⟩ := List.chain_cons.1 hch
    have htB : t ≤ B := hub t (List.mem_cons_self _ _)
    have hub2 : ∀ u ∈ ts, u ≤ B := fun u hu => hub u (List.mem_cons_of_mem _ hu)
    obtain ⟨x, tl⟩ := l
    simp only at hlt h0 hB ⊢
    simp only [allowSeq]
    by_cases hc : 1 ≤ min 3 (x + (t - tl))
    · rw [allow_succ x tl t hc]
      have hnext := ih ⟨min 3 (x + (t - tl)) - 1, t⟩ hch2 hub2
        (by show (0 : ℚ) ≤ min 3 (x + (t - tl)) - 1; linarith) htB
      simp only at hnext
      have hmin : min 3 (x + (t - tl)) ≤ x + (t - tl) := min_le_right _ _
      simp only [if_true, Nat.cast_add, Nat.cast_one, Nat.cast_ofNat]
      linarith
    · rw [allow_fail x tl t hc]
      have h02 : 0 ≤ min 3 (x + (t - tl)) :=
        le_min (by norm_num) (by linarith)
      have hnext := ih ⟨min 3 (x + (t - tl)), t⟩ hch2 hub2 h02 htB
      simp only at hnext
      have hmin : min 3 (x + (t - tl)) ≤ x + (t - tl) := min_le_right _ _
      simp only [if_false]
      push_cast
      linarith

/-- A freshly seen identity's bucket, after its three initial
admissions at the moment of creation: empty. -/
theorem allowSeq_exhaust (t0 : ℚ) :
    allowSeq (freshLimiter t0) [t0, t0, t0] = (3, ⟨0, t0⟩) := by
  have h1 : allow ⟨(3 : ℚ), t0⟩ t0 = (true, ⟨2, t0⟩) := by
    rw [allow_succ 3 t0 t0 (by norm_num)]
    norm_num
  have h2 : allow ⟨(2 : ℚ), t0⟩ t0 = (true, ⟨1, t0⟩) := by
    rw [allow_succ 2 t0 t0 (by norm_num)]
    norm_num
  have h3 : allow ⟨(1 : ℚ), t0⟩ t0 = (true, ⟨0, t0⟩) := by
    rw [allow_succ 1 t0 t0 (by norm_num)]
    norm_num
  simp only [allowSeq, freshLimiter, burst, h1, h2, h3]
  norm_num


/-- C2 (amended): starting from an unseen (full) bucket, at most 3
admissions succeed within any window shorter than 1 second (the time to
refill one token at 1 token/second); the three initial admissions empty
the bucket and a fourth at the same instant is denied; after waiting at
least 1 and less than 2 seconds with no intervening consumption exactly
one more admission succeeds (the next one is denied again); and a denied
admission consumes no tokens. -/
theorem spec_c2 (t0 w v : ℚ) (ts : List ℚ)
    (hchain : List.Chain (· ≤ ·) t0 ts) (hub : ∀ t ∈ ts, t ≤ t0 + w)
    (hw : w < 1) (hv1 : 1 ≤ v) (hv2 : v < 2) :
    (allowSeq (freshLimiter t0) ts).1 ≤ 3 ∧
    allowSeq (freshLimiter t0) [t0, t0, t0] = (3, ⟨0, t0⟩) ∧
    (allow (⟨0, t0⟩ : Limiter) t0).1 = false ∧
    allow (⟨0, t0⟩ : Limiter) (t0 + v) = (true, ⟨v - 1, t0 + v⟩) ∧
    (allow (⟨v - 1, t0 + v⟩ : Limiter) (t0 + v)).1 = false ∧
    (∀ (l : Limiter) (u : ℚ), (allow l u).1 = false →
      (allow l u).2 = advanceTo l u) := by
  refine ⟨?_, allowSeq_exhaust t0, ?_, ?_, ?_, ?_⟩
  · cases ts with
    | nil => simp [allowSeq]
    | cons t ts2 =>
      have hfresh : freshLimiter t0 = (⟨3, t0⟩ : Limiter) := by
        unfold freshLimiter burst; rfl
      have h0w : (0 : ℚ) ≤ w := by
        have h1 := (List.chain_cons.1 hchain).1
        have h2 := hub t (List.mem_cons_self _ _)
        linarith
      have hb := allowSeq_bound (t0 + w) (t :: ts2) ⟨3, t0⟩ hchain hub
        (by norm_num) (by linarith)
      rw [hfresh]
      have h4 : ((allowSeq (⟨3, t0⟩ : Limiter) (t :: ts2)).1 : ℚ) < 4 := by
        simp only at hb
        linarith
      exact_mod_cast Nat.lt_succ_iff.mp (by exact_mod_cast h4)
  · rw [allow_fail 0 t0 t0 (by rw [sub_self, add_zero]; norm_num [min_def])]
  · have hmin : min 3 ((0 : ℚ) + (t0 + v - t0)) = v := by
      rw [zero_add, add_sub_cancel_left]
      exact min_eq_right (by linarith)
    rw [allow_succ 0 t0 (t0 + v) (by rw [hmin]; exact hv1), hmin]
  · have hmin2 : min 3 ((v - 1) + (t0 + v - (t0 + v))) = v - 1 := by
      rw [sub_self, add_zero]
      exact min_eq_right (by linarith)
    rw [allow_fail (v - 1) (t0 + v) (t0 + v) (by rw [hmin2]; linarith)]
  · intro l u h
    by_cases hc : 1 ≤ (advanceTo l u).tokens
    · simp only [allow] at h
      rw [if_pos hc] at h
      simp at h
    · simp only [allow]
      rw [if_neg hc]

/-- Witness for C2: four same-instant requests from a fresh bucket admit
at most three, and after the bucket is emptied a request one second later
is admitted with exactly one token spent. -/
theorem spec_c2_witness :
    (allowSeq (freshLimiter 0) [0, 0, 0, 0]).1 ≤ 3 ∧
      allow (⟨0, 0⟩ : Limiter) (0 + 1) = (true, ⟨1 - 1, 0 + 1⟩) := by
  have h := spec_c2 0 (1 / 2) 1 [0, 0, 0, 0] (by simp [List.chain_cons])
    (by intro t ht; simp at ht; subst ht; norm_num) (by norm_num) (by norm_num)
    (by norm_num)
  exact ⟨h.1, h.2.2.2.1⟩

/-- C2 counterexample to the claim as stated: after the bucket is
exhausted at instant 0, waiting 2 seconds (which is "at least 1 second")
lets TWO further admissions succeed at instant 2, not exactly one. -/
theorem spec_c2_counterexample :
    (allow (allowSeq (freshLimiter 0) [0, 0, 0]).2 2).1 = true ∧
      (allow (allow (allowSeq (freshLimiter 0) [0, 0, 0]).2 2).2 2).1 = true := by
  have h1 : allow (⟨0, 0⟩ : Limiter) 2 = (true, ⟨1, 2⟩) := by
    rw [allow_succ 0 0 2 (by norm_num [min_def])]
    norm_num [min_def]
  have h2 : allow (⟨1, 2⟩ : Limiter) 2 = (true, ⟨0, 2⟩) := by
    rw [allow_succ 1 2 2 (by norm_num [min_def])]
    norm_num [min_def]
  rw [allowSeq_exhaust 0]
  dsimp only
  rw [h1]
  dsimp only
  rw [h2]
  exact ⟨rfl, rfl⟩

/-- A request from one identity never touches another identity's bucket. -/
theorem allowClient_other (vs : String → Option Limiter) (a b : String)
    (hab : b ≠ a) (t : ℚ) : (allowClient vs a t).2 b = vs b := by
  cases hva : vs a with
  | some l =>
    simp only [allowClient, getVisitor, hva]
    rw [if_neg hab]
  | none =>
    simp only [allowClient, getVisitor, hva]
    rw [if_neg hab, if_neg hab]

/-- Any sequence of requests by one identity leaves every other
identity's registry entry unchanged. -/
theorem runClients_other (a b : String) (hab : a ≠ b) (ts : List ℚ) :
    ∀ vs, (runClients vs (ts.map fun t => (a, t))).1 b = vs b := by
  induction ts with
  | nil => intro vs; rfl
  | cons t ts ih =>
    intro vs
    simp only [List.map_cons, runClients]
    rw [ih ((allowClient vs a t).2)]
    exact allowClient_other vs a b (Ne.symm hab) t

/-- The outcomes of one identity's requests depend only on that
identity's registry entry. -/
theorem runClients_self_congr (b : String) (us : List ℚ) :
    ∀ vs vs2 : String → Option Limiter, vs b = vs2 b →
      (runClients vs (us.map fun t => (b, t))).2 =
          (runClients vs2 (us.map fun t => (b, t))).2 ∧
        (runClients vs (us.map fun t => (b, t))).1 b =
          (runClients vs2 (us.map fun t => (b, t))).1 b := by
  induction us with
  | nil => intro vs vs2 h; exact ⟨rfl, h⟩
  | cons u us ih =>
    intro vs vs2 h
    have hok : (allowClient vs b u).1 = (allowClient vs2 b u).1 := by
      simp only [allowClient, getVisitor]
      rw [h]
      cases hv2 : vs2 b <;> rfl
    have hreg : (allowClient vs b u).2 b = (allowClient vs2 b u).2 b := by
      simp only [allowClient, getVisitor]
      rw [h]
      cases hv2 : vs2 b with
      | some l => simp
      | none => simp
    obtain ⟨ihOuts, ihReg⟩ := ih (allowClient vs b u).2 (allowClient vs2 b u).2 hreg
    simp only [List.map_cons, runClients]
    exact ⟨by rw [hok, ihOuts], ihReg⟩

/-- C8: admission state is independent across distinct client identities
(including two addresses differing only in port): any request sequence by
one identity leaves the other identity's bucket untouched, and therefore
the other identity observes exactly the admission outcomes it would have
observed without that interference. -/
theorem spec_c8 (a b : String) (hab : a ≠ b) (ts us : List ℚ)
    (vs : String → Option Limiter) :
    (runClients vs (ts.map fun t => (a, t))).1 b = vs b ∧
      (runClients (runClients vs (ts.map fun t => (a, t))).1
          (us.map fun t => (b, t))).2 =
        (runClients vs (us.map fun t => (b, t))).2 := by
  have h1 := runClients_other a b hab ts vs
  exact ⟨h1, (runClients_self_congr b us _ _ h1).1⟩


/-- Witness for C8: two identities differing only in port, four requests
by the first — the second identity's registry entry stays absent and its
own four requests produce the same outcomes either way. -/
theorem spec_c8_witness :
    (runClients (fun _ => none)
        (([0, 0, 0, 0] : List ℚ).map fun t => ("192.0.2.1:1234", t))).1
        "192.0.2.1:5678" = none ∧
      (runClients
          (runClients (fun _ => none)
            (([0, 0, 0, 0] : List ℚ).map fun t => ("192.0.2.1:1234", t))).1
          (([0, 0, 0, 0] : List ℚ).map fun t => ("192.0.2.1:5678", t))).2 =
        (runClients (fun _ => none)
          (([0, 0, 0, 0] : List ℚ).map fun t => ("192.0.2.1:5678", t))).2 :=
  spec_c8 "192.0.2.1:1234" "192.0.2.1:5678" (by decide) [0, 0, 0, 0]
    [0, 0, 0, 0] (fun _ => none)

end SpaceBooking
